import Mathlib

/-!
Verification development for the gps-map-app live-track computation engine.

The definitions below are shallow embeddings of the JavaScript source:
  - `haversineDistance`, `SAMPLE_ROUTE`, the `RideTracker` state machine
    (demo-mode interval, live-mode `watchPosition` callback, stats effect,
    `rideFinished`) from `src/RideTracker.js`;
  - `getCachedRoute` / `setCachedRoute` from `src/routeCache.js`;
  - `fetchDirections` from `src/App.js`.
JavaScript floating-point numbers are modelled as exact real numbers.
-/

open scoped Classical

namespace GpsMap

/-- A coordinate, `(latitude, longitude)` in degrees. -/
abbrev Coord : Type := ℝ × ℝ

/-- Degrees to radians, the `toRad` helper inside `haversineDistance`. -/
noncomputable def toRad (x : ℝ) : ℝ := x * Real.pi / 180

/-- Model of JavaScript `Math.atan2 y x`. -/
noncomputable def atan2 (y x : ℝ) : ℝ :=
  if 0 < x then Real.arctan (y / x)
  else if x < 0 then
    (if 0 ≤ y then Real.arctan (y / x) + Real.pi else Real.arctan (y / x) - Real.pi)
  else if 0 < y then Real.pi / 2
  else if y < 0 then -(Real.pi / 2)
  else 0

/-- The `haversineDistance` function of `RideTracker.js`: great-circle distance
in metres on a sphere of radius 6,371,000 m. -/
noncomputable def haversineDistance (lat1 lon1 lat2 lon2 : ℝ) : ℝ :=
  let R : ℝ := 6371e3
  let dLat := toRad (lat2 - lat1)
  let dLon := toRad (lon2 - lon1)
  let a := Real.sin (dLat / 2) * Real.sin (dLat / 2) +
    Real.cos (toRad lat1) * Real.cos (toRad lat2) *
    Real.sin (dLon / 2) * Real.sin (dLon / 2)
  let c := 2 * atan2 (Real.sqrt a) (Real.sqrt (1 - a))
  R * c

/-- The built-in `SAMPLE_ROUTE` fallback loop (Hoan Kiem Lake). -/
noncomputable def SAMPLE_ROUTE : List Coord :=
  [(21.028511, 105.852017),
   (21.028759, 105.853158),
   (21.028936, 105.854340),
   (21.028870, 105.855309),
   (21.028570, 105.856195),
   (21.028084, 105.857021),
   (21.027471, 105.857663),
   (21.026819, 105.858102),
   (21.026187, 105.858261),
   (21.025452, 105.858185),
   (21.024783, 105.857851),
   (21.024244, 105.857315),
   (21.023868, 105.856610),
   (21.023703, 105.855786),
   (21.023807, 105.854946),
   (21.024175, 105.854175),
   (21.024776, 105.853551),
   (21.025529, 105.853181),
   (21.026343, 105.853091),
   (21.027135, 105.853282),
   (21.027868, 105.853751),
   (21.028511, 105.854439),
   (21.028936, 105.855309)]

lemma SAMPLE_ROUTE_length : SAMPLE_ROUTE.length = 23 := rfl

lemma toRad_zero : toRad 0 = 0 := by simp [toRad]

lemma atan2_zero_one : atan2 0 1 = 0 := by
  rw [atan2, if_pos one_pos]
  simp

lemma atan2_one_zero : atan2 1 0 = Real.pi / 2 := by
  rw [atan2, if_neg (lt_irrefl 0), if_neg (lt_irrefl 0), if_pos one_pos]

lemma arctan_nonneg_of_nonneg {t : ℝ} (h : 0 ≤ t) : 0 ≤ Real.arctan t := by
  rw [← Real.arctan_zero]
  exact Real.arctan_strictMono.monotone h

lemma atan2_nonneg {y x : ℝ} (hy : 0 ≤ y) (hx : 0 ≤ x) : 0 ≤ atan2 y x := by
  rw [atan2]
  split_ifs with h1 h2 h3 h4
  · exact arctan_nonneg_of_nonneg (div_nonneg hy h1.le)
  · linarith
  · positivity
  · linarith
  · exact le_refl 0

lemma atan2_le_pi_div_two {y x : ℝ} (hy : 0 ≤ y) (hx : 0 ≤ x) :
    atan2 y x ≤ Real.pi / 2 := by
  rw [atan2]
  split_ifs with h1 h2 h3 h4
  · exact (Real.arctan_lt_pi_div_two _).le
  · linarith
  · exact le_refl _
  · linarith
  · positivity

lemma toRad_180 : toRad 180 = Real.pi := by
  rw [toRad, mul_comm, mul_div_assoc]
  norm_num

lemma haversine_same_point : haversineDistance 0 0 0 0 = 0 := by
  simp [haversineDistance, toRad, atan2_zero_one]

lemma haversine_antipodal : haversineDistance 0 0 0 180 = 6371e3 * Real.pi := by
  rw [haversineDistance]
  simp only [sub_zero, sub_self, toRad_zero, toRad_180, zero_div, Real.sin_zero,
    Real.cos_zero, Real.sin_pi_div_two]
  norm_num [atan2_one_zero]
  ring

lemma haversine_equator_small :
    haversineDistance 0 0 0 0.001 = 6371e3 * (Real.pi / 180000) := by
  have hlon : toRad 0.001 = Real.pi / 180000 := by rw [toRad]; ring
  have hθlt : Real.pi / 360000 < Real.pi / 2 := by linarith [Real.pi_pos]
  have hθlo : -(Real.pi / 2) < Real.pi / 360000 := by linarith [Real.pi_pos]
  have hsin : 0 ≤ Real.sin (Real.pi / 360000) :=
    Real.sin_nonneg_of_nonneg_of_le_pi (by positivity) (by linarith [Real.pi_pos])
  have hcos : 0 < Real.cos (Real.pi / 360000) :=
    Real.cos_pos_of_mem_Ioo ⟨hθlo, hθlt⟩
  have hhalf : Real.pi / 180000 / 2 = Real.pi / 360000 := by ring
  rw [haversineDistance]
  simp only [sub_self, sub_zero, toRad_zero, zero_div, Real.sin_zero, Real.cos_zero,
    hlon, hhalf, mul_zero, zero_mul, one_mul, mul_one, zero_add]
  rw [Real.sqrt_mul_self hsin]
  have hb : 1 - Real.sin (Real.pi / 360000) * Real.sin (Real.pi / 360000) =
      Real.cos (Real.pi / 360000) * Real.cos (Real.pi / 360000) := by
    nlinarith [Real.sin_sq_add_cos_sq (Real.pi / 360000)]
  rw [hb, Real.sqrt_mul_self hcos.le]
  rw [atan2, if_pos hcos, ← Real.tan_eq_sin_div_cos, Real.arctan_tan hθlo hθlt]
  ring

lemma scaled_atan2_bounds (A : ℝ) :
    0 ≤ 6371e3 * (2 * atan2 (Real.sqrt A) (Real.sqrt (1 - A))) ∧
    6371e3 * (2 * atan2 (Real.sqrt A) (Real.sqrt (1 - A))) ≤ 6371e3 * Real.pi := by
  have h1 := atan2_nonneg (Real.sqrt_nonneg A) (Real.sqrt_nonneg (1 - A))
  have h2 := atan2_le_pi_div_two (Real.sqrt_nonneg A) (Real.sqrt_nonneg (1 - A))
  constructor <;> nlinarith

lemma haversine_bounds (lat1 lon1 lat2 lon2 : ℝ) :
    0 ≤ haversineDistance lat1 lon1 lat2 lon2 ∧
    haversineDistance lat1 lon1 lat2 lon2 ≤ 6371e3 * Real.pi := by
  rw [haversineDistance]
  exact scaled_atan2_bounds _

lemma haversine_equator_small_approx :
    |haversineDistance 0 0 0 0.001 - 111.19| ≤ 1.1119 := by
  rw [haversine_equator_small, abs_le]
  constructor <;> nlinarith [Real.pi_gt_d6, Real.pi_lt_d6]

lemma haversine_antipodal_gt_five : 5 < haversineDistance 0 0 0 180 := by
  rw [haversine_antipodal]
  nlinarith [Real.pi_gt_three]

lemma haversine_same_point_lt_five : haversineDistance 0 0 0 0 < 5 := by
  rw [haversine_same_point]
  norm_num

/-- A cached route result, the value shape stored by `setCachedRoute` in
`App.js` (`{ route, distance, duration }`). -/
structure RouteEntry where
  route : List Coord
  distance : ℝ
  duration : ℝ

/-- The route cache of `routeCache.js` (`const routeCache = new Map()`),
modelled as an association list where the most recent write for a key
shadows earlier ones. -/
abbrev RouteCache : Type := List (String × RouteEntry)

/-- `getCachedRoute(key)` of `routeCache.js`: `routeCache.get(key)`. -/
def getCachedRoute (cache : RouteCache) (key : String) : Option RouteEntry :=
  (List.find? (fun p => p.1 == key) cache).map (fun p => p.2)

/-- `setCachedRoute(key, value)` of `routeCache.js`: `routeCache.set(key, value)`. -/
def setCachedRoute (cache : RouteCache) (key : String) (value : RouteEntry) : RouteCache :=
  (key, value) :: cache

lemma getCachedRoute_setCachedRoute_same (cache : RouteCache) (key : String)
    (value : RouteEntry) : getCachedRoute (setCachedRoute cache key value) key = some value := by
  simp [getCachedRoute, setCachedRoute, List.find?]

lemma getCachedRoute_of_not_written (cache : RouteCache) (key : String)
    (h : ∀ p ∈ cache, p.1 ≠ key) : getCachedRoute cache key = none := by
  rw [getCachedRoute, List.find?_eq_none.mpr]
  · rfl
  · intro p hp
    simpa using h p hp

/-- Outcome of one directions-provider request in `fetchDirections`
(`App.js`): the network request either throws, or returns a response
whose `routes` array may be empty. -/
inductive ProviderOutcome where
  | networkFailure : ProviderOutcome
  | response (routes : List RouteEntry) : ProviderOutcome

/-- The component state touched by `fetchDirections` in `App.js`. -/
structure FetchState where
  route : List Coord
  distance : Option ℝ
  duration : Option ℝ
  directionsError : Option String
  cache : RouteCache

/-- The `fetchDirections` flow of `App.js` on a cache miss or hit for `routeKey`:
consult the cache first; on a miss issue one provider request; on success set
route, distance and duration and populate the cache; a thrown request or an
empty `routes` array both land in the catch block, which sets the labelled
error and leaves the cache untouched. -/
def fetchDirections (cache : RouteCache) (routeKey : String)
    (outcome : ProviderOutcome) : FetchState :=
  match getCachedRoute cache routeKey with
  | some cached =>
      { route := cached.route, distance := some cached.distance,
        duration := some cached.duration, directionsError := none, cache := cache }
  | none =>
      match outcome with
      | .networkFailure =>
          { route := [], distance := none, duration := none,
            directionsError := some ("Failed to fetch directions."), cache := cache }
      | .response [] =>
          { route := [], distance := none, duration := none,
            directionsError := some ("Failed to fetch directions."), cache := cache }
      | .response (r :: _) =>
          { route := r.route, distance := some r.distance, duration := some r.duration,
            directionsError := none,
            cache := setCachedRoute cache routeKey
              { route := r.route, distance := r.distance, duration := r.duration } }

/-- State of one `RideTracker` component instance: the `positions`,
`distance`, `duration`, `speed` React states, the `demoIndexRef` ref, the
props captured by the running effect (`demoMode`, `directionRoute`, the
chosen `demoRoute` closure variable, `startTimeRef`), and whether the demo
interval, the live one-second interval and the geolocation watch are active. -/
structure RideState where
  positions : List Coord
  distance : ℝ
  duration : ℕ
  speed : ℝ
  demoMode : Bool
  directionRoute : List Coord
  demoRoute : List Coord
  demoIndex : ℕ
  demoTimerActive : Bool
  liveTimerActive : Bool
  liveWatchActive : Bool
  startTime : ℕ

/-- Demo-route selection at the top of the demo effect:
`directionRoute && directionRoute.length > 1 ? directionRoute : SAMPLE_ROUTE`. -/
noncomputable def chooseDemoRoute (directionRoute : List Coord) : List Coord :=
  if 1 < directionRoute.length then directionRoute else SAMPLE_ROUTE

/-- The demo interval period passed to `setInterval` in the demo effect (ms). -/
def demoIntervalMs : ℕ := 2200

/-- The live elapsed-time interval period passed to `setInterval` (ms). -/
def liveIntervalMs : ℕ := 1000

/-- Start of the demo effect (`tracking && demoMode`): seed `positions` with
the route's first point, zero the stats, record the start time, set
`demoIndexRef` to 1, and start the demo interval. -/
noncomputable def startDemo (directionRoute : List Coord) (now : ℕ) : RideState :=
  let demoRoute := chooseDemoRoute directionRoute
  { positions := [demoRoute.headI], distance := 0, duration := 0, speed := 0,
    demoMode := true, directionRoute := directionRoute, demoRoute := demoRoute,
    demoIndex := 1, demoTimerActive := true, liveTimerActive := false,
    liveWatchActive := false, startTime := now }

/-- One firing of the demo interval callback: update `duration`, then append
`demoRoute[demoIndexRef]` and advance the index while in range, otherwise
clear the interval and leave `positions` unchanged. A cleared interval no
longer fires. -/
noncomputable def demoTick (now : ℕ) (s : RideState) : RideState :=
  if s.demoTimerActive then
    let s1 := { s with duration := (now - s.startTime) / 1000 }
    if s1.demoIndex < s1.demoRoute.length then
      { s1 with positions := s1.positions ++ [s1.demoRoute.getD s1.demoIndex ((0 : ℝ), (0 : ℝ))],
                demoIndex := s1.demoIndex + 1 }
    else
      { s1 with demoTimerActive := false }
  else s

/-- Start of the live effect (`tracking && !demoMode`): clear `positions`,
zero the stats, record the start time, start `watchPosition` and the
one-second duration interval. -/
noncomputable def startLive (directionRoute : List Coord) (now : ℕ) : RideState :=
  { positions := [], distance := 0, duration := 0, speed := 0,
    demoMode := false, directionRoute := directionRoute, demoRoute := [],
    demoIndex := 0, demoTimerActive := false, liveTimerActive := true,
    liveWatchActive := true, startTime := now }

/-- The `watchPosition` success callback body: accept the new sample when the
path is empty, or when the haversine distance from the last accepted point
exceeds 5 metres; otherwise keep the path unchanged. -/
noncomputable def liveAccept (prev : List Coord) (newPos : Coord) : List Coord :=
  if prev.length = 0 then [newPos]
  else
    let last := prev.getD (prev.length - 1) ((0 : ℝ), (0 : ℝ))
    if 5 < haversineDistance last.1 last.2 newPos.1 newPos.2 then prev ++ [newPos]
    else prev

/-- One `watchPosition` callback delivery; a callback after the watch has been
cleared is a no-op. -/
noncomputable def liveSample (newPos : Coord) (s : RideState) : RideState :=
  if s.liveWatchActive then { s with positions := liveAccept s.positions newPos } else s

/-- One firing of the live one-second interval: recompute `duration`. -/
noncomputable def liveTick (now : ℕ) (s : RideState) : RideState :=
  if s.liveTimerActive then { s with duration := (now - s.startTime) / 1000 } else s

/-- Total of consecutive pairwise haversine distances, the loop of the stats
effect in `RideTracker.js`. -/
noncomputable def pathDistance : List Coord → ℝ
  | p :: q :: rest => haversineDistance p.1 p.2 q.1 q.2 + pathDistance (q :: rest)
  | _ => 0

/-- The stats effect: when `positions.length > 1`, recompute `distance` from
scratch over the whole path and `speed` as `total / (duration || 1)`. -/
noncomputable def updateStats (s : RideState) : RideState :=
  if 1 < s.positions.length then
    let total := pathDistance s.positions
    { s with distance := total,
             speed := total / (if s.duration = 0 then 1 else (s.duration : ℝ)) }
  else s

/-- The `!tracking` branch and the effect cleanup: clear both intervals and
the geolocation watch, leaving path and stats untouched. `clearInterval` on
an absent timer is a no-op. -/
def stop (s : RideState) : RideState :=
  { s with demoTimerActive := false, liveTimerActive := false, liveWatchActive := false }

/-- The `rideFinished` flag of `RideTracker.js`:
`demoMode && directionRoute && directionRoute.length > 1 && positions.length === directionRoute.length`. -/
def rideFinished (s : RideState) : Bool :=
  s.demoMode && decide (1 < s.directionRoute.length) &&
    decide (s.positions.length = s.directionRoute.length)

/-- Events delivered to a running live track. -/
inductive LiveEvent where
  | sample (newPos : Coord) : LiveEvent
  | tick (now : ℕ) : LiveEvent

/-- One live-mode event followed by the stats effect (which reruns whenever
`positions` or `duration` change). -/
noncomputable def liveStep (s : RideState) (e : LiveEvent) : RideState :=
  match e with
  | .sample p => updateStats (liveSample p s)
  | .tick n => updateStats (liveTick n s)

/-- A live track: start, then process a sequence of events. -/
noncomputable def runLive (directionRoute : List Coord) (now : ℕ)
    (events : List LiveEvent) : RideState :=
  events.foldl liveStep (startLive directionRoute now)

/-- One demo interval firing followed by the stats effect. -/
noncomputable def demoStep (s : RideState) (now : ℕ) : RideState :=
  updateStats (demoTick now s)

/-- A demo track: start, then fire the demo interval once per entry of `ticks`. -/
noncomputable def runDemo (directionRoute : List Coord) (now : ℕ)
    (ticks : List ℕ) : RideState :=
  ticks.foldl demoStep (startDemo directionRoute now)

/-- The raw path accumulated by feeding a list of samples through the
`watchPosition` acceptance policy, starting from the empty path. -/
noncomputable def livePath (samples : List Coord) : List Coord :=
  samples.foldl liveAccept []

lemma updateStats_positions (s : RideState) : (updateStats s).positions = s.positions := by
  rw [updateStats]
  split <;> rfl

lemma updateStats_duration (s : RideState) : (updateStats s).duration = s.duration := by
  rw [updateStats]
  split <;> rfl

lemma updateStats_demoIndex (s : RideState) : (updateStats s).demoIndex = s.demoIndex := by
  rw [updateStats]
  split <;> rfl

lemma updateStats_demoTimerActive (s : RideState) :
    (updateStats s).demoTimerActive = s.demoTimerActive := by
  rw [updateStats]
  split <;> rfl

lemma updateStats_demoRoute (s : RideState) : (updateStats s).demoRoute = s.demoRoute := by
  rw [updateStats]
  split <;> rfl

lemma updateStats_directionRoute (s : RideState) :
    (updateStats s).directionRoute = s.directionRoute := by
  rw [updateStats]
  split <;> rfl

lemma updateStats_demoMode (s : RideState) : (updateStats s).demoMode = s.demoMode := by
  rw [updateStats]
  split <;> rfl

lemma updateStats_liveTimerActive (s : RideState) :
    (updateStats s).liveTimerActive = s.liveTimerActive := by
  rw [updateStats]
  split <;> rfl

lemma updateStats_liveWatchActive (s : RideState) :
    (updateStats s).liveWatchActive = s.liveWatchActive := by
  rw [updateStats]
  split <;> rfl

lemma updateStats_startTime (s : RideState) : (updateStats s).startTime = s.startTime := by
  rw [updateStats]
  split <;> rfl

lemma chooseDemoRoute_length_ge_two (dr : List Coord) : 2 ≤ (chooseDemoRoute dr).length := by
  rw [chooseDemoRoute]
  split
  · omega
  · rw [SAMPLE_ROUTE_length]
    omega

lemma chooseDemoRoute_of_le_one (dr : List Coord) (h : dr.length ≤ 1) :
    chooseDemoRoute dr = SAMPLE_ROUTE := by
  rw [chooseDemoRoute, if_neg]
  omega

lemma chooseDemoRoute_of_lt (dr : List Coord) (h : 1 < dr.length) :
    chooseDemoRoute dr = dr :=
  if_pos h

lemma runDemo_append_tick (dr : List Coord) (now : ℕ) (ticks : List ℕ) (t : ℕ) :
    runDemo dr now (ticks ++ [t]) = demoStep (runDemo dr now ticks) t := by
  rw [runDemo, runDemo, List.foldl_append, List.foldl_cons, List.foldl_nil]

lemma runDemo_progress (dr : List Coord) (now : ℕ) (ticks : List ℕ) :
    (runDemo dr now ticks).demoRoute = chooseDemoRoute dr ∧
    (runDemo dr now ticks).directionRoute = dr ∧
    (runDemo dr now ticks).demoMode = true ∧
    (runDemo dr now ticks).demoIndex =
      min (ticks.length + 1) (chooseDemoRoute dr).length ∧
    (runDemo dr now ticks).positions = (chooseDemoRoute dr).take (ticks.length + 1) ∧
    (runDemo dr now ticks).demoTimerActive =
      decide (ticks.length < (chooseDemoRoute dr).length) := by
  have hlen : 2 ≤ (chooseDemoRoute dr).length := chooseDemoRoute_length_ge_two dr
  induction ticks using List.reverseRecOn with
  | nil =>
      refine ⟨rfl, rfl, rfl, ?_, ?_, ?_⟩
      · show (1 : ℕ) = min (0 + 1) (chooseDemoRoute dr).length
        omega
      · show [(chooseDemoRoute dr).headI] = (chooseDemoRoute dr).take (0 + 1)
        cases h : chooseDemoRoute dr with
        | nil => rw [h] at hlen; simp at hlen
        | cons a rest => simp
      · show true = decide (List.length [] < (chooseDemoRoute dr).length)
        rw [List.length_nil]
        exact (decide_eq_true (by omega)).symm
  | append_singleton l t ih =>
      obtain ⟨ihRoute, ihDir, ihMode, ihIdx, ihPos, ihTimer⟩ := ih
      rw [runDemo_append_tick]
      set s := runDemo dr now l with hs
      rw [List.length_append, List.length_singleton]
      rcases lt_or_le l.length (chooseDemoRoute dr).length with hk | hk
      · -- the timer was still active
        have hTimer : s.demoTimerActive = true := by
          rw [ihTimer]
          exact decide_eq_true hk
        rw [demoStep, demoTick, if_pos hTimer]
        rcases lt_or_eq_of_le (Nat.succ_le_of_lt hk) with hk1 | hk1
        · -- the index is still in range: append the next route point
          have hIdx : s.demoIndex = l.length + 1 := by
            rw [ihIdx]
            omega
          have hcond : s.demoIndex < s.demoRoute.length := by
            rw [hIdx, ihRoute]
            exact hk1
          rw [if_pos hcond]
          refine ⟨by rw [updateStats_demoRoute]; exact ihRoute,
              by rw [updateStats_directionRoute]; exact ihDir,
              by rw [updateStats_demoMode]; exact ihMode, ?_, ?_, ?_⟩
          · rw [updateStats_demoIndex]
            show s.demoIndex + 1 = _
            rw [hIdx]
            omega
          · rw [updateStats_positions]
            show s.positions ++ [s.demoRoute.getD s.demoIndex ((0 : ℝ), (0 : ℝ))] = _
            have hk1' : l.length + 1 < (chooseDemoRoute dr).length := hk1
            rw [ihPos, ihRoute, hIdx]
            conv_rhs => rw [List.take_succ]
            rw [List.getD_eq_getElem?_getD, List.getElem?_eq_getElem hk1']
            rfl
          · rw [updateStats_demoTimerActive]
            show s.demoTimerActive = _
            rw [ihTimer]
            have h1 : l.length < (chooseDemoRoute dr).length := hk
            have h2 : l.length + 1 < (chooseDemoRoute dr).length := hk1
            rw [decide_eq_true h1, decide_eq_true h2]
        · -- the last point was already appended: this firing clears the interval
          have hIdx : s.demoIndex = (chooseDemoRoute dr).length := by
            rw [ihIdx]
            omega
          have hcond : ¬ s.demoIndex < s.demoRoute.length := by
            rw [hIdx, ihRoute]
            omega
          rw [if_neg hcond]
          refine ⟨by rw [updateStats_demoRoute]; exact ihRoute,
              by rw [updateStats_directionRoute]; exact ihDir,
              by rw [updateStats_demoMode]; exact ihMode, ?_, ?_, ?_⟩
          · rw [updateStats_demoIndex]
            show s.demoIndex = _
            rw [hIdx]
            omega
          · rw [updateStats_positions]
            show s.positions = _
            rw [ihPos, List.take_of_length_le (by omega), List.take_of_length_le (by omega)]
          · rw [updateStats_demoTimerActive]
            show false = _
            rw [decide_eq_false (by omega)]
      · -- the timer had already been cleared: the interval no longer fires
        have hTimer : s.demoTimerActive = false := by
          rw [ihTimer]
          exact decide_eq_false (by omega)
        rw [demoStep, demoTick, if_neg (by rw [hTimer]; exact Bool.false_ne_true)]
        refine ⟨by rw [updateStats_demoRoute]; exact ihRoute,
            by rw [updateStats_directionRoute]; exact ihDir,
            by rw [updateStats_demoMode]; exact ihMode, ?_, ?_, ?_⟩
        · rw [updateStats_demoIndex, ihIdx]
          omega
        · rw [updateStats_positions, ihPos,
            List.take_of_length_le (by omega), List.take_of_length_le (by omega)]
        · rw [updateStats_demoTimerActive, hTimer]
          rw [decide_eq_false (by omega)]

/-- Claim C1, counterexample: with an absent direction route the demo runs the
built-in 23-point fallback route; after 22 timer advancements the Path holds
all 23 route points, yet `rideFinished` is still false, because the finish
check compares against `directionRoute` and not against the route actually
driving the demo. -/
theorem demo_fallback_not_finished :
    (runDemo [] 0 (List.replicate 22 0)).demoRoute.length = 23 ∧
    (runDemo [] 0 (List.replicate 22 0)).positions.length =
      (runDemo [] 0 (List.replicate 22 0)).demoRoute.length ∧
    rideFinished (runDemo [] 0 (List.replicate 22 0)) = false := by
  obtain ⟨hRoute, hDir, hMode, hIdx, hPos, hTimer⟩ := runDemo_progress [] 0 (List.replicate 22 0)
  have hchoose : chooseDemoRoute [] = SAMPLE_ROUTE := chooseDemoRoute_of_le_one [] (by simp)
  have hlen : (List.replicate 22 (0 : ℕ)).length = 22 := List.length_replicate 22 0
  rw [hchoose] at hRoute hPos
  rw [hlen] at hPos
  have hfull : List.take (22 + 1) SAMPLE_ROUTE = SAMPLE_ROUTE :=
    List.take_of_length_le (by rw [SAMPLE_ROUTE_length])
  refine ⟨by rw [hRoute, SAMPLE_ROUTE_length], ?_, ?_⟩
  · rw [hRoute, hPos, hfull]
  · rw [rideFinished, hDir]
    simp

/-- Claim C1, amended: when the demo route is a supplied direction route of
N ≥ 2 points, then after N−1 timer advancements the Path has exactly N points
and `rideFinished` holds. (With the built-in fallback route the Path still
fills up, but `rideFinished` never becomes true — see the counterexample.) -/
theorem demo_completion_of_direction_route (dr : List Coord) (now : ℕ) (ticks : List ℕ)
    (hroute : 1 < dr.length) (hticks : ticks.length = dr.length - 1) :
    (runDemo dr now ticks).positions.length = dr.length ∧
    rideFinished (runDemo dr now ticks) = true := by
  obtain ⟨hRoute, hDir, hMode, hIdx, hPos, hTimer⟩ := runDemo_progress dr now ticks
  have hchoose : chooseDemoRoute dr = dr := chooseDemoRoute_of_lt dr hroute
  rw [hchoose] at hPos
  have hfull : ticks.length + 1 = dr.length := by omega
  have hlenPos : (runDemo dr now ticks).positions.length = dr.length := by
    rw [hPos, hfull, List.take_length]
  refine ⟨hlenPos, ?_⟩
  rw [rideFinished, hDir, hMode, hlenPos]
  simp [hroute]

/-- Witness for the amended claim C1 at a concrete two-point direction route. -/
theorem demo_completion_witness :
    (runDemo [((0 : ℝ), (0 : ℝ)), ((0 : ℝ), (1 : ℝ))] 0 [0]).positions.length =
      ([((0 : ℝ), (0 : ℝ)), ((0 : ℝ), (1 : ℝ))] : List Coord).length ∧
    rideFinished (runDemo [((0 : ℝ), (0 : ℝ)), ((0 : ℝ), (1 : ℝ))] 0 [0]) = true :=
  demo_completion_of_direction_route [((0 : ℝ), (0 : ℝ)), ((0 : ℝ), (1 : ℝ))] 0 [0]
    (by simp) (by simp)

/-- Claim C6: with an absent, empty or single-point direction route, the demo
effect substitutes the built-in 23-point `SAMPLE_ROUTE`, seeds the Path with
its first point, and each firing of the fixed 2,200 ms interval appends the
next fallback point. -/
theorem demo_fallback_route (dr : List Coord) (now : ℕ) (ticks : List ℕ)
    (hshort : dr.length ≤ 1) (hticks : ticks.length + 1 ≤ SAMPLE_ROUTE.length) :
    (startDemo dr now).demoRoute = SAMPLE_ROUTE ∧
    SAMPLE_ROUTE.length = 23 ∧
    (startDemo dr now).positions = [SAMPLE_ROUTE.headI] ∧
    demoIntervalMs = 2200 ∧
    (runDemo dr now ticks).positions = SAMPLE_ROUTE.take (ticks.length + 1) := by
  obtain ⟨hRoute, hDir, hMode, hIdx, hPos, hTimer⟩ := runDemo_progress dr now ticks
  have hchoose : chooseDemoRoute dr = SAMPLE_ROUTE := chooseDemoRoute_of_le_one dr hshort
  refine ⟨?_, SAMPLE_ROUTE_length, ?_, rfl, ?_⟩
  · show chooseDemoRoute dr = SAMPLE_ROUTE
    exact hchoose
  · show [(chooseDemoRoute dr).headI] = [SAMPLE_ROUTE.headI]
    rw [hchoose]
  · rw [hPos, hchoose]

/-- Witness for claim C6 at the empty direction route after one interval firing. -/
theorem demo_fallback_route_witness :
    (startDemo [] 0).demoRoute = SAMPLE_ROUTE ∧
    SAMPLE_ROUTE.length = 23 ∧
    (startDemo [] 0).positions = [SAMPLE_ROUTE.headI] ∧
    demoIntervalMs = 2200 ∧
    (runDemo [] 0 [2200]).positions = SAMPLE_ROUTE.take ([2200].length + 1) :=
  demo_fallback_route [] 0 [2200] (by simp) (by rw [SAMPLE_ROUTE_length]; simp)

/-- Claim C10: during a demo track the Path is always a non-empty prefix of the
chosen demo route, its length never exceeds the route's length, and once the
Path holds the whole route a further interval firing leaves the Path unchanged
and leaves the demo interval cancelled. -/
theorem demo_path_prefix_inv (dr : List Coord) (now : ℕ) (ticks : List ℕ) (t : ℕ) :
    (runDemo dr now ticks).positions ≠ [] ∧
    (runDemo dr now ticks).positions =
      (runDemo dr now ticks).demoRoute.take (runDemo dr now ticks).positions.length ∧
    (runDemo dr now ticks).positions.length ≤ (runDemo dr now ticks).demoRoute.length ∧
    ((runDemo dr now ticks).positions.length = (runDemo dr now ticks).demoRoute.length →
      (demoTick t (runDemo dr now ticks)).positions = (runDemo dr now ticks).positions ∧
      (demoTick t (runDemo dr now ticks)).demoTimerActive = false) := by
  obtain ⟨hRoute, hDir, hMode, hIdx, hPos, hTimer⟩ := runDemo_progress dr now ticks
  have hlen : 2 ≤ (chooseDemoRoute dr).length := chooseDemoRoute_length_ge_two dr
  set s := runDemo dr now ticks with hs
  have hPosLen : s.positions.length = min (ticks.length + 1) (chooseDemoRoute dr).length := by
    rw [hPos, List.length_take]
  refine ⟨?_, ?_, ?_, ?_⟩
  · intro hnil
    rw [hnil] at hPosLen
    simp at hPosLen
    omega
  · rw [hRoute, hPosLen, hPos, List.take_eq_take]
    omega
  · rw [hRoute, hPosLen]
    omega
  · intro hfullLen
    rw [hRoute] at hfullLen
    rw [hPosLen] at hfullLen
    rw [demoTick]
    rcases lt_or_le ticks.length (chooseDemoRoute dr).length with hk | hk
    · have hTimerT : s.demoTimerActive = true := by
        rw [hTimer]
        exact decide_eq_true hk
      rw [if_pos hTimerT, if_neg (by rw [hRoute]; show ¬ s.demoIndex < _; rw [hIdx]; omega)]
      exact ⟨rfl, rfl⟩
    · have hTimerF : s.demoTimerActive = false := by
        rw [hTimer]
        exact decide_eq_false (by omega)
      rw [if_neg (by rw [hTimerF]; exact Bool.false_ne_true)]
      exact ⟨rfl, hTimerF⟩

/-- Witness for claim C10: the fallback demo after 22 interval firings has the
full route in its Path, and a further firing changes nothing. -/
theorem demo_path_prefix_inv_witness :
    (demoTick 7 (runDemo [] 0 (List.replicate 22 0))).positions =
      (runDemo [] 0 (List.replicate 22 0)).positions ∧
    (demoTick 7 (runDemo [] 0 (List.replicate 22 0))).demoTimerActive = false :=
  (demo_path_prefix_inv [] 0 (List.replicate 22 0) 7).2.2.2 (by
    obtain ⟨hRoute, hDir, hMode, hIdx, hPos, hTimer⟩ :=
      runDemo_progress [] 0 (List.replicate 22 0)
    rw [hPos, hRoute, List.length_take, List.length_replicate,
      chooseDemoRoute_of_le_one [] (by simp), SAMPLE_ROUTE_length]
    omega)

lemma pathDistance_nil : pathDistance [] = 0 := rfl

lemma pathDistance_single (p : Coord) : pathDistance [p] = 0 := rfl

lemma pathDistance_short (l : List Coord) (h : l.length ≤ 1) : pathDistance l = 0 := by
  cases l with
  | nil => rfl
  | cons a t =>
      cases t with
      | nil => rfl
      | cons b t2 => simp at h

lemma liveAccept_nil (p : Coord) : liveAccept [] p = [p] := by
  rw [liveAccept, if_pos (show ([] : List Coord).length = 0 from rfl)]

lemma liveAccept_of_near (prev : List Coord) (p : Coord) (hne : prev.length ≠ 0)
    (hd : ¬ 5 < haversineDistance (prev.getD (prev.length - 1) ((0 : ℝ), (0 : ℝ))).1
      (prev.getD (prev.length - 1) ((0 : ℝ), (0 : ℝ))).2 p.1 p.2) :
    liveAccept prev p = prev := by
  rw [liveAccept, if_neg hne]
  exact if_neg hd

lemma liveAccept_of_far (prev : List Coord) (p : Coord) (hne : prev.length ≠ 0)
    (hd : 5 < haversineDistance (prev.getD (prev.length - 1) ((0 : ℝ), (0 : ℝ))).1
      (prev.getD (prev.length - 1) ((0 : ℝ), (0 : ℝ))).2 p.1 p.2) :
    liveAccept prev p = prev ++ [p] := by
  rw [liveAccept, if_neg hne]
  exact if_pos hd

lemma liveAccept_short (prev : List Coord) (p : Coord)
    (h : (liveAccept prev p).length ≤ 1) :
    pathDistance (liveAccept prev p) = 0 ∧ pathDistance prev = 0 := by
  by_cases hne : prev.length = 0
  · have hprev : prev = [] := List.length_eq_zero.mp hne
    rw [hprev, liveAccept_nil]
    exact ⟨pathDistance_single p, pathDistance_nil⟩
  · by_cases hd : 5 < haversineDistance (prev.getD (prev.length - 1) ((0 : ℝ), (0 : ℝ))).1
        (prev.getD (prev.length - 1) ((0 : ℝ), (0 : ℝ))).2 p.1 p.2
    · rw [liveAccept_of_far prev p hne hd] at h ⊢
      rw [List.length_append, List.length_singleton] at h
      omega
    · rw [liveAccept_of_near prev p hne hd] at h ⊢
      exact ⟨pathDistance_short prev h, pathDistance_short prev h⟩

/-- The stats-effect invariant: `distance` and `speed` agree with a from-scratch
recomputation over the current Path. -/
def StatsInv (s : RideState) : Prop :=
  s.distance = pathDistance s.positions ∧
  s.speed = pathDistance s.positions / max (s.duration : ℝ) 1

lemma ite_duration_eq_max (d : ℕ) :
    (if d = 0 then (1 : ℝ) else (d : ℝ)) = max (d : ℝ) 1 := by
  cases d with
  | zero => simp
  | succ n =>
      rw [if_neg (Nat.succ_ne_zero n), max_eq_left]
      exact_mod_cast Nat.succ_le_succ (Nat.zero_le n)

lemma updateStats_statsInv (s : RideState)
    (h : s.positions.length ≤ 1 → StatsInv s) : StatsInv (updateStats s) := by
  by_cases hlen : 1 < s.positions.length
  · have heq : updateStats s =
        { s with distance := pathDistance s.positions,
                 speed := pathDistance s.positions /
                   (if s.duration = 0 then 1 else (s.duration : ℝ)) } := by
      rw [updateStats, if_pos hlen]
    rw [StatsInv, heq]
    exact ⟨rfl, by rw [ite_duration_eq_max]⟩
  · have heq : updateStats s = s := by rw [updateStats, if_neg hlen]
    rw [heq]
    exact h (by omega)

lemma liveStep_statsInv (s : RideState) (e : LiveEvent) (h : StatsInv s) :
    StatsInv (liveStep s e) := by
  cases e with
  | sample p =>
      show StatsInv (updateStats (liveSample p s))
      apply updateStats_statsInv
      intro hshort
      rw [liveSample] at hshort ⊢
      split_ifs with hw
      · rw [if_pos hw] at hshort
        obtain ⟨hnew, hold⟩ := liveAccept_short s.positions p hshort
        exact ⟨by rw [hnew]; rw [h.1, hold], by rw [hnew]; rw [h.2, hold]⟩
      · exact h
  | tick n =>
      show StatsInv (updateStats (liveTick n s))
      apply updateStats_statsInv
      intro hshort
      rw [liveTick] at hshort ⊢
      split_ifs with hw
      · rw [if_pos hw] at hshort
        have hzero : pathDistance s.positions = 0 := pathDistance_short _ hshort
        refine ⟨?_, ?_⟩
        · show s.distance = pathDistance s.positions
          exact h.1
        · show s.speed = pathDistance s.positions / _
          rw [hzero, zero_div]
          rw [h.2, hzero, zero_div]
      · exact h

lemma foldl_preserves {α β : Type} (P : β → Prop) (f : β → α → β)
    (hstep : ∀ b a, P b → P (f b a)) :
    ∀ (l : List α) (b : β), P b → P (l.foldl f b) := by
  intro l
  induction l with
  | nil => intro b hb; exact hb
  | cons a t ih =>
      intro b hb
      exact ih (f b a) (hstep b a hb)

lemma startLive_statsInv (dr : List Coord) (now : ℕ) : StatsInv (startLive dr now) := by
  constructor
  · show (0 : ℝ) = pathDistance []
    rw [pathDistance_nil]
  · show (0 : ℝ) = pathDistance [] / max ((0 : ℕ) : ℝ) 1
    rw [pathDistance_nil, zero_div]

lemma runLive_statsInv (dr : List Coord) (now : ℕ) (events : List LiveEvent) :
    StatsInv (runLive dr now events) :=
  foldl_preserves StatsInv liveStep liveStep_statsInv events
    (startLive dr now) (startLive_statsInv dr now)

lemma pathDistance_concrete_pair :
    pathDistance [((0 : ℝ), (0 : ℝ)), ((0 : ℝ), (0.001 : ℝ))] =
      haversineDistance 0 0 0 0.001 := by
  show haversineDistance 0 0 0 0.001 + pathDistance [((0 : ℝ), (0.001 : ℝ))] = _
  rw [pathDistance_single, add_zero]

/-- Claim C3: in every reachable live-track state, `distance` equals the
from-scratch sum of consecutive pairwise haversine distances over the whole
Path, and `speed` equals `distance / max(duration, 1)`; concretely, the
two-point path [(0,0), (0, 0.001)] totals 111.19 m within one percent. -/
theorem stats_recomputed_from_scratch (dr : List Coord) (now : ℕ)
    (events : List LiveEvent) :
    (runLive dr now events).distance = pathDistance (runLive dr now events).positions ∧
    (runLive dr now events).speed =
      (runLive dr now events).distance / max ((runLive dr now events).duration : ℝ) 1 ∧
    |pathDistance [((0 : ℝ), (0 : ℝ)), ((0 : ℝ), (0.001 : ℝ))] - 111.19| ≤ 1.1119 := by
  obtain ⟨h1, h2⟩ := runLive_statsInv dr now events
  refine ⟨h1, ?_, ?_⟩
  · rw [h1, h2]
  · rw [pathDistance_concrete_pair]
    exact haversine_equator_small_approx

/-- Claim C2: in Live mode a new sample is appended if and only if the Path is
empty or the haversine distance from the last accepted point exceeds 5 m;
feeding two samples under 5 m apart leaves a Path of length 1, and a third
sample more than 5 m from the first grows it to length 2. -/
theorem live_sample_acceptance (prev : List Coord) (p s1 s2 s3 : Coord)
    (h12 : haversineDistance s1.1 s1.2 s2.1 s2.2 < 5)
    (h13 : 5 < haversineDistance s1.1 s1.2 s3.1 s3.2) :
    (liveAccept prev p = prev ++ [p] ↔
      (prev = [] ∨ 5 < haversineDistance (prev.getD (prev.length - 1) ((0 : ℝ), (0 : ℝ))).1
        (prev.getD (prev.length - 1) ((0 : ℝ), (0 : ℝ))).2 p.1 p.2)) ∧
    livePath [s1, s2] = [s1] ∧
    (livePath [s1, s2, s3]).length = 2 := by
  have step1 : livePath [s1, s2] = [s1] := by
    show liveAccept (liveAccept [] s1) s2 = [s1]
    rw [liveAccept_nil]
    apply liveAccept_of_near
    · simp
    · show ¬ 5 < haversineDistance s1.1 s1.2 s2.1 s2.2
      linarith
  refine ⟨?_, step1, ?_⟩
  · by_cases h0 : prev.length = 0
    · have hp : prev = [] := List.length_eq_zero.mp h0
      subst hp
      rw [liveAccept_nil]
      simp
    · by_cases hd : 5 < haversineDistance (prev.getD (prev.length - 1) ((0 : ℝ), (0 : ℝ))).1
          (prev.getD (prev.length - 1) ((0 : ℝ), (0 : ℝ))).2 p.1 p.2
      · rw [liveAccept_of_far prev p h0 hd]
        exact ⟨fun _ => Or.inr hd, fun _ => rfl⟩
      · rw [liveAccept_of_near prev p h0 hd]
        constructor
        · intro habs
          exfalso
          have hlen := congrArg List.length habs
          rw [List.length_append, List.length_singleton] at hlen
          omega
        · intro hor
          rcases hor with hnil | hfar
          · exact absurd (by rw [hnil]; rfl : prev.length = 0) h0
          · exact absurd hfar hd
  · show (liveAccept (livePath [s1, s2]) s3).length = 2
    rw [step1, liveAccept_of_far [s1] s3 (by simp)
      (by show 5 < haversineDistance s1.1 s1.2 s3.1 s3.2; exact h13)]
    rfl

/-- Witness for claim C2: a repeated fix at the origin is rejected, a point on
the opposite meridian is accepted. -/
theorem live_sample_acceptance_witness :
    livePath [((0 : ℝ), (0 : ℝ)), ((0 : ℝ), (0 : ℝ))] = [((0 : ℝ), (0 : ℝ))] ∧
    (livePath [((0 : ℝ), (0 : ℝ)), ((0 : ℝ), (0 : ℝ)), ((0 : ℝ), (180 : ℝ))]).length = 2 :=
  ⟨(live_sample_acceptance [] ((0 : ℝ), (0 : ℝ)) ((0 : ℝ), (0 : ℝ)) ((0 : ℝ), (0 : ℝ))
      ((0 : ℝ), (180 : ℝ)) haversine_same_point_lt_five haversine_antipodal_gt_five).2.1,
   (live_sample_acceptance [] ((0 : ℝ), (0 : ℝ)) ((0 : ℝ), (0 : ℝ)) ((0 : ℝ), (0 : ℝ))
      ((0 : ℝ), (180 : ℝ)) haversine_same_point_lt_five haversine_antipodal_gt_five).2.2⟩

lemma liveAccept_chain (prev : List Coord) (p : Coord)
    (h : List.Chain' (fun a b => 5 < haversineDistance a.1 a.2 b.1 b.2) prev) :
    List.Chain' (fun a b => 5 < haversineDistance a.1 a.2 b.1 b.2) (liveAccept prev p) := by
  by_cases h0 : prev.length = 0
  · have hp : prev = [] := List.length_eq_zero.mp h0
    subst hp
    rw [liveAccept_nil]
    exact List.chain'_singleton p
  · by_cases hd : 5 < haversineDistance (prev.getD (prev.length - 1) ((0 : ℝ), (0 : ℝ))).1
        (prev.getD (prev.length - 1) ((0 : ℝ), (0 : ℝ))).2 p.1 p.2
    · rw [liveAccept_of_far prev p h0 hd, List.chain'_append]
      refine ⟨h, List.chain'_singleton p, ?_⟩
      intro x hx y hy
      have hne : prev ≠ [] := by
        intro hc
        rw [hc] at h0
        exact h0 rfl
      rw [List.getLast?_eq_getLast prev hne] at hx
      have hxval : prev.getLast hne = x := by simpa using hx
      have hyval : p = y := by simpa using hy
      subst hxval
      subst hyval
      have hgl : prev.getLast hne = prev.getD (prev.length - 1) ((0 : ℝ), (0 : ℝ)) := by
        rw [List.getLast_eq_getElem prev hne, List.getD_eq_getElem?_getD,
          List.getElem?_eq_getElem (by omega : prev.length - 1 < prev.length)]
        rfl
      rw [hgl]
      exact hd
    · rw [liveAccept_of_near prev p h0 hd]
      exact h

lemma liveStep_chain (s : RideState) (e : LiveEvent)
    (h : List.Chain' (fun a b => 5 < haversineDistance a.1 a.2 b.1 b.2) s.positions) :
    List.Chain' (fun a b => 5 < haversineDistance a.1 a.2 b.1 b.2) (liveStep s e).positions := by
  cases e with
  | sample p =>
      show List.Chain' _ (updateStats (liveSample p s)).positions
      rw [updateStats_positions, liveSample]
      split_ifs with hw
      · exact liveAccept_chain s.positions p h
      · exact h
  | tick n =>
      show List.Chain' _ (updateStats (liveTick n s)).positions
      rw [updateStats_positions, liveTick]
      split_ifs with hw
      · exact h
      · exact h

/-- Claim C9: in every reachable live-track state, consecutive Path points are
strictly more than 5 m apart by haversine distance; every sample callback
(accepting or rejecting) preserves this, starting from the empty Path. -/
theorem live_spacing_invariant (dr : List Coord) (now : ℕ) (events : List LiveEvent) :
    List.Chain' (fun a b => 5 < haversineDistance a.1 a.2 b.1 b.2)
      (runLive dr now events).positions := by
  have hstart : List.Chain' (fun a b : Coord => 5 < haversineDistance a.1 a.2 b.1 b.2)
      (startLive dr now).positions := List.chain'_nil
  have h := foldl_preserves
    (fun s : RideState =>
      List.Chain' (fun a b : Coord => 5 < haversineDistance a.1 a.2 b.1 b.2) s.positions)
    liveStep liveStep_chain events (startLive dr now) hstart
  rw [runLive]
  exact h

/-- Claim C7: the geodesic distance function is pure and total: for every pair
of real coordinates, in or out of the nominal latitude/longitude ranges, the
result is non-negative and bounded by half the sphere's circumference
(hence finite). -/
theorem haversine_pure_total (lat1 lon1 lat2 lon2 : ℝ) :
    0 ≤ haversineDistance lat1 lon1 lat2 lon2 ∧
    haversineDistance lat1 lon1 lat2 lon2 ≤ 6371e3 * Real.pi :=
  haversine_bounds lat1 lon1 lat2 lon2

/-- Claim C8: stopping a tracker that already has no active timer or watch is
a no-op — the state, in particular Path, distance, duration and speed, is
unchanged — and stop is idempotent. -/
theorem stop_idempotent_noop (s : RideState)
    (h : s.demoTimerActive = false ∧ s.liveTimerActive = false ∧ s.liveWatchActive = false) :
    stop s = s ∧ stop (stop s) = stop s ∧
    (stop s).positions = s.positions ∧ (stop s).distance = s.distance ∧
    (stop s).duration = s.duration ∧ (stop s).speed = s.speed := by
  obtain ⟨h1, h2, h3⟩ := h
  refine ⟨?_, ?_, rfl, rfl, rfl, rfl⟩
  · cases s
    simp_all [stop]
  · cases s
    rfl

/-- Witness for claim C8: stopping an already-stopped live track changes nothing. -/
theorem stop_idempotent_noop_witness :
    stop (stop (startLive [] 0)) = stop (startLive [] 0) :=
  (stop_idempotent_noop (stop (startLive [] 0)) ⟨rfl, rfl, rfl⟩).1

/-- Claim C4: the route cache round-trips: a `get` right after a `put` returns
the stored entry, a never-written key reads back as absent, and a second `put`
on the same key wins. -/
theorem cache_round_trip (cache : RouteCache) (key : String) (e e1 e2 : RouteEntry)
    (hnew : ∀ p ∈ cache, p.1 ≠ key) :
    getCachedRoute (setCachedRoute cache key e) key = some e ∧
    getCachedRoute cache key = none ∧
    getCachedRoute (setCachedRoute (setCachedRoute cache key e1) key e2) key = some e2 :=
  ⟨getCachedRoute_setCachedRoute_same cache key e,
   getCachedRoute_of_not_written cache key hnew,
   getCachedRoute_setCachedRoute_same (setCachedRoute cache key e1) key e2⟩

/-- Witness for claim C4 on the empty cache and a concrete key and entries. -/
theorem cache_round_trip_witness :
    getCachedRoute (setCachedRoute [] "a|b" ⟨[], 0, 0⟩) "a|b" = some ⟨[], 0, 0⟩ ∧
    getCachedRoute [] "a|b" = none ∧
    getCachedRoute (setCachedRoute (setCachedRoute [] "a|b" ⟨[], 0, 0⟩) "a|b" ⟨[], 1, 1⟩)
      "a|b" = some ⟨[], 1, 1⟩ :=
  cache_round_trip [] "a|b" ⟨[], 0, 0⟩ ⟨[], 0, 0⟩ ⟨[], 1, 1⟩ (by simp)

/-- Claim C5: on a cache miss, a failed directions lookup (network failure or
empty routes array) surfaces the labelled error message and leaves the cache
untouched; only a successful lookup populates the cache. -/
theorem directions_failure_not_cached (cache : RouteCache) (routeKey : String)
    (hmiss : getCachedRoute cache routeKey = none) :
    (fetchDirections cache routeKey .networkFailure).directionsError =
      some ("Failed to fetch directions.") ∧
    (fetchDirections cache routeKey .networkFailure).cache = cache ∧
    (fetchDirections cache routeKey (.response [])).directionsError =
      some ("Failed to fetch directions.") ∧
    (fetchDirections cache routeKey (.response [])).cache = cache ∧
    ∀ r rest, (fetchDirections cache routeKey (.response (r :: rest))).directionsError = none ∧
      (fetchDirections cache routeKey (.response (r :: rest))).cache =
        setCachedRoute cache routeKey ⟨r.route, r.distance, r.duration⟩ := by
  refine ⟨?_, ?_, ?_, ?_, ?_⟩ <;> simp [fetchDirections, hmiss]

/-- Witness for claim C5 on the empty cache. -/
theorem directions_failure_witness :
    (fetchDirections [] "a|b" .networkFailure).directionsError =
      some ("Failed to fetch directions.") ∧
    (fetchDirections [] "a|b" .networkFailure).cache = [] :=
  ⟨(directions_failure_not_cached [] "a|b" rfl).1,
   (directions_failure_not_cached [] "a|b" rfl).2.1⟩
